import Mathlib

/-!
Shallow embedding of the paginated-retrieval and aggregation core of the
PAA schedule repository (`src/paa.py`, `src/paa2.py`).  Python functions
are translated into executable Lean definitions; fallible Python code
(exceptions) is modelled with `Option` and `Except`.  The theorems below
settle the specification claims against these definitions.
-/

/-- One entry of the provider directory: the `ProviderInfo` TypedDict of
`paa2.py` (all fields are strings). -/
structure ProviderInfo where
  provider_npi : String
  provider_fname : String
  provider_lname : String
  provider_gender : String
  provider_degree : String
  provider_speciality : String
  provider_healow_uri : String
  accept_new_patients : String
  facility_id : String
deriving DecidableEq

/-- The `FacilityDateTimeSlot` NamedTuple of `paa2.py`: the key of the
availability index, with structural equality. -/
structure FacilityDateTimeSlot where
  facility_id : String
  date : String
  time : String
deriving DecidableEq

/-- Python `str.split(sep)` for a one-character separator, acting on the
character list of the string.  The empty string splits to `[[]]`, and a
separator at either end produces an empty group, as in Python. -/
def splitOnChar (sep : Char) : List Char → List (List Char)
  | [] => [[]]
  | c :: rest =>
    match splitOnChar sep rest with
    | g :: gs => if c = sep then [] :: g :: gs else (c :: g) :: gs
    | [] => [[c]]

/-- Python `int(...)` as `bin_time` applies it to the minute field:
succeeds on a nonempty all-digit string, raises `ValueError` (here:
`none`) otherwise. -/
def parseInt? (cs : List Char) : Option Nat :=
  if cs ≠ [] ∧ cs.all Char.isDigit then
    some (cs.foldl (fun acc c => acc * 10 + (c.toNat - 48)) 0)
  else none

/-- The Python format spec `0>2` applied to a natural number: decimal
digits, left-padded with `0` to width two. -/
def pad2 (n : Nat) : String :=
  if n < 10 then "0" ++ toString n else toString n

/-- `bin_time` from `paa2.py` (lines 50-57): split the string on `:`,
take the first two groups as hour and minute (raising when there are
fewer than two groups), bin the minute by floor division, and format
hour verbatim next to the zero-padded binned minute.  The hour group is
never converted to an integer, hence never validated.  `none` models the
`ValueError` raised on too few groups or a non-numeric minute. -/
def bin_time (t : String) (minutes : Nat := 15) : Option String :=
  match splitOnChar ':' t.data with
  | h :: m :: _ =>
    match parseInt? m with
    | some mv => some (String.mk h ++ ":" ++ pad2 (mv / minutes * minutes))
    | none => none
  | _ => none

example : bin_time "12:40:00" 15 = some "12:30" := by decide
example : bin_time "00:07:00" 15 = some "00:00" := by decide
example : bin_time "23:59:59" 15 = some "23:45" := by decide
example : bin_time "ab:07:00" 15 = some "ab:00" := by decide
example : bin_time "12:xx:00" 15 = none := by decide
example : bin_time "12" 15 = none := by decide

/-- One record of `appt_slots` in a page of the remote response: the
fields `_get_provider_slots_for_date` reads from each `appt` dict. -/
structure ApptRecord where
  date : String
  time : String
deriving DecidableEq

/-- One page of the `GetProviderSlotsByDate` JSON response, restricted
to the fields the walker reads: `status` at the top level and, inside
`response.appt_more_slots`, the flag `more`, the optional
`next_start_time` (`none` models an absent key) and the `appt_slots`
list (read with `.get('appt_slots', [])`, so an absent key is the empty
list). -/
structure PageResponse where
  status : String
  more : Bool
  next_start_time : Option String
  appt_slots : List ApptRecord
deriving DecidableEq

/-- The slot objects one page contributes in
`_get_provider_slots_for_date`: for each `appt` record,
`FacilityDateTimeSlot(provider['facility_id'], appt['date'],
bin_time(appt['time']))`.  `none` models the `ValueError` that
`bin_time` raises on a malformed time. -/
def slotsOfAppts (fid : String) : List ApptRecord → Option (List FacilityDateTimeSlot)
  | [] => some []
  | a :: rest =>
    match bin_time a.time 15, slotsOfAppts fid rest with
    | some tb, some ss => some (⟨fid, a.date, tb⟩ :: ss)
    | _, _ => none

/-- All slots extracted from one `PageResponse`. -/
def pageSlots (fid : String) (r : PageResponse) : Option (List FacilityDateTimeSlot) :=
  slotsOfAppts fid r.appt_slots

/-- Outcome of the `while more` loop of `_get_provider_slots_for_date`.
`ok slots calls` is a normal return after `calls` page requests;
`keyError calls` is the `KeyError` raised by
`appts_info['next_start_time']` when `more` is true but the key is
absent; `binError calls` is the `ValueError` raised by `bin_time` on a
malformed slot time; `fuelOut calls acc` means the loop is still
running after `calls` iterations (the Python loop has no bound, so the
fuel argument below is purely a modelling device). -/
inductive WalkResult where
  | ok (slots : List FacilityDateTimeSlot) (calls : Nat)
  | keyError (calls : Nat)
  | binError (calls : Nat)
  | fuelOut (calls : Nat) (acc : List FacilityDateTimeSlot)
deriving DecidableEq

/-- The body of the `while more` loop of `_get_provider_slots_for_date`
(`paa2.py` lines 183-199), one constructor of fuel per iteration.  The
transport `tp` maps the current `start_time` payload field to the page
response.  Source order is kept: status check first, then the `more`
flag, then (only when `more` is true) the `next_start_time` lookup,
then the slot extraction, then the next iteration. -/
def walkAux (tp : String → PageResponse) (fid : String) :
    Nat → String → Nat → List FacilityDateTimeSlot → WalkResult
  | 0, _, calls, acc => .fuelOut calls acc
  | fuel + 1, st, calls, acc =>
    let r := tp st
    if r.status = "success" then
      if r.more then
        match r.next_start_time with
        | none => .keyError (calls + 1)
        | some nst =>
          match pageSlots fid r with
          | none => .binError (calls + 1)
          | some ps => walkAux tp fid fuel nst (calls + 1) (acc ++ ps)
      else
        match pageSlots fid r with
        | none => .binError (calls + 1)
        | some ps => .ok (acc ++ ps) (calls + 1)
    else
      .ok acc (calls + 1)

/-- `_get_provider_slots_for_date` for one provider (identified by its
`facility_id` field, the only provider field that reaches the returned
slots) and one requested date.  The payload starts with
`start_time = "06:00:00"`; the transport is a function of the payload's
`appt_date` and `start_time`, the only two fields that vary. -/
def walk (tp : String → String → PageResponse) (date fid : String) (fuel : Nat) : WalkResult :=
  walkAux (tp date) fid fuel "06:00:00" 0 []

def pageA : PageResponse :=
  ⟨"success", true, some "10:00:00", [⟨"2024-01-02", "09:05:00"⟩]⟩

def pageB : PageResponse :=
  ⟨"success", false, none, [⟨"2024-01-02", "10:20:00"⟩]⟩

def tpTwoPages : String → String → PageResponse :=
  fun _ st => if st = "06:00:00" then pageA else pageB

example :
    walk tpTwoPages "2024-01-02" "1" 10 =
      WalkResult.ok [⟨"1", "2024-01-02", "09:00"⟩, ⟨"1", "2024-01-02", "10:15"⟩] 2 := by
  decide

example :
    walk (fun _ _ => ⟨"fail", true, some "10:00:00", []⟩) "2024-01-02" "1" 10 =
      WalkResult.ok [] 1 := by
  decide

example :
    walk (fun _ _ => ⟨"success", true, none, [⟨"2024-01-02", "09:05:00"⟩]⟩) "2024-01-02" "1" 10 =
      WalkResult.keyError 1 := by
  decide

/-- The availability index under construction: the Python dict
`slots_dict`, modelled as an insertion-ordered association list with
unique keys. -/
abbrev AvailabilityIndex : Type :=
  List (FacilityDateTimeSlot × List ProviderInfo)

/-- `slots_dict.setdefault(slot, []).append(provider)` from
`get_all_available_times` (`paa2.py` line 237): append the provider to
the entry of `slot`, creating the entry at the end when absent. -/
def updateSlot (d : AvailabilityIndex) (s : FacilityDateTimeSlot) (pr : ProviderInfo) :
    AvailabilityIndex :=
  match d with
  | [] => [(s, [pr])]
  | (k, ps) :: rest =>
    if k = s then (k, ps ++ [pr]) :: rest else (k, ps) :: updateSlot rest s pr

/-- The inner `for slot in slots` loop of `get_all_available_times`:
merge one successful task result (one provider with its slot list) into
the index. -/
def mergeProviderSlots (d : AvailabilityIndex) (pr : ProviderInfo)
    (slots : List FacilityDateTimeSlot) : AvailabilityIndex :=
  slots.foldl (fun d' s => updateSlot d' s pr) d

/-- The index produced by feeding a list of successful task results
(provider, slots) to the merge loop of `get_all_available_times`, in
the given completion order. -/
def buildIndex (rs : List (ProviderInfo × List FacilityDateTimeSlot)) : AvailabilityIndex :=
  rs.foldl (fun d e => mergeProviderSlots d e.1 e.2) []

/-- The providers an index records for a key (the entry's list, `[]`
when the key is absent). -/
def providersAt : AvailabilityIndex → FacilityDateTimeSlot → List ProviderInfo
  | [], _ => []
  | (s, ps) :: d, k => (if s = k then ps else []) ++ providersAt d k

/-- The result-collection loop of `get_all_available_times` (`paa2.py`
lines 232-238): for each completed future, `slots = f.result()` either
yields the task's slot list or re-raises the task's exception; there is
no try/except, so `Except.error` aborts the whole collection. -/
def collectAll :
    List (ProviderInfo × Except String (List FacilityDateTimeSlot)) → AvailabilityIndex →
      Except String AvailabilityIndex
  | [], d => .ok d
  | (_, .error e) :: _, _ => .error e
  | (pr, .ok slots) :: rest, d => collectAll rest (mergeProviderSlots d pr slots)

/-- The result-collection loop of `_stage_4_fill_more_times` (`paa.py`
lines 310-316).  `f.result()` is wrapped in try/except, but the
`out.append(prov_info_filled)` that follows runs in both cases, so on
an exception the local variable still holds the previous iteration's
value: the state argument mirrors that local.  When the first future
already fails, the local is unbound and the append raises `NameError`
(`none`). -/
def stage4Collect :
    List (ProviderInfo × Except String ProviderInfo) → Option ProviderInfo →
      List ProviderInfo → Option (List ProviderInfo)
  | [], _, out => some out
  | (_, .ok filled) :: rest, _, out => stage4Collect rest (some filled) (out ++ [filled])
  | (_, .error _) :: rest, some prev, out => stage4Collect rest (some prev) (out ++ [prev])
  | (_, .error _) :: _, none, _ => none

def provA : ProviderInfo :=
  ⟨"1111111111", "Ada", "Axon", "F", "MD", "Pediatrician", "u", "yes", "1"⟩

def provB : ProviderInfo :=
  ⟨"2222222222", "Ben", "Bone", "M", "DO", "Pediatrician", "v", "yes", "1"⟩

def slot900 : FacilityDateTimeSlot :=
  ⟨"1", "2024-01-02", "09:00"⟩

def slot1015 : FacilityDateTimeSlot :=
  ⟨"1", "2024-01-02", "10:15"⟩

example :
    providersAt (buildIndex [(provA, [slot900, slot900])]) slot900 = [provA, provA] := by
  decide

example :
    collectAll [(provA, .ok [slot900]), (provB, .error "ConnectionError")] [] =
      .error "ConnectionError" := rfl

example :
    stage4Collect [(provA, .ok provA), (provB, .error "ConnectionError")] none [] =
      some [provA, provA] := rfl

example :
    stage4Collect [(provB, .error "ConnectionError"), (provA, .ok provA)] none [] = none := rfl

def tpFail : String → String → PageResponse :=
  fun _ _ => ⟨"fail", true, some "10:00:00", []⟩

def pageNoNext : PageResponse :=
  ⟨"success", true, none, [⟨"2024-01-02", "09:05:00"⟩]⟩

def stallPage : PageResponse :=
  ⟨"success", true, some "06:00:00", []⟩

/-- A transport whose every page answers success, `more = true` and a
continuation cursor equal to the request's own start time: the cursor
never advances. -/
def stallTp : String → String → PageResponse :=
  fun _ _ => stallPage

def tpDupPage : PageResponse :=
  ⟨"success", false, none, [⟨"2024-01-02", "09:05:00"⟩, ⟨"2024-01-02", "09:12:00"⟩]⟩

def tpOddDate : String → String → PageResponse :=
  fun _ _ => ⟨"success", false, none, [⟨"2999-01-01", "09:05:00"⟩]⟩

/-- Concatenation of the extracted slot lists of pages `0 … k`. -/
def psConcat (ps : Nat → List FacilityDateTimeSlot) : Nat → List FacilityDateTimeSlot
  | 0 => ps 0
  | k + 1 => ps 0 ++ psConcat (fun i => ps (i + 1)) k

/-- Unrolling the stalled loop: after consuming any amount of fuel the
loop is still running, with one page request per fuel unit. -/
theorem walkAux_stall (fid : String) :
    ∀ (fuel : Nat) (st : String) (calls : Nat) (acc : List FacilityDateTimeSlot),
      walkAux (stallTp "2024-01-02") fid fuel st calls acc =
        WalkResult.fuelOut (calls + fuel) acc := by
  intro fuel
  induction fuel with
  | zero => intro st calls acc; simp [walkAux]
  | succ n ih =>
    intro st calls acc
    have step :
        walkAux (stallTp "2024-01-02") fid (n + 1) st calls acc =
          walkAux (stallTp "2024-01-02") fid n "06:00:00" (calls + 1) (acc ++ []) := rfl
    rw [step, List.append_nil, ih "06:00:00" (calls + 1) acc]
    congr 1
    omega

/-- Claim C7: `bin_time` drops the seconds group, truncates the minute
down to a multiple of the width by floor division (never up), copies
the hour group verbatim (so a zero-padded `HH` stays zero-padded) and
zero-pads the minute, and the three width-15 examples of the spec
evaluate as stated. -/
theorem bin_time_truncates_and_pads (t : String) (hcs mcs : List Char)
    (rest : List (List Char)) (w mv : Nat) (_hw : 0 < w)
    (hsplit : splitOnChar ':' t.data = hcs :: mcs :: rest)
    (hm : parseInt? mcs = some mv) :
    bin_time t w = some (String.mk hcs ++ ":" ++ pad2 (mv / w * w)) ∧
      mv / w * w ≤ mv ∧ w ∣ mv / w * w ∧
      bin_time "12:40:00" 15 = some "12:30" ∧
      bin_time "00:07:00" 15 = some "00:00" ∧
      bin_time "23:59:59" 15 = some "23:45" := by
  refine ⟨?_, Nat.div_mul_le_self mv w, ⟨mv / w, Nat.mul_comm (mv / w) w⟩,
    by decide, by decide, by decide⟩
  simp only [bin_time, hsplit, hm]

theorem bin_time_truncates_and_pads_witness :
    bin_time "12:40:00" 15 = some (String.mk ['1', '2'] ++ ":" ++ pad2 (40 / 15 * 15)) ∧
      40 / 15 * 15 ≤ 40 ∧ 15 ∣ 40 / 15 * 15 ∧
      bin_time "12:40:00" 15 = some "12:30" ∧
      bin_time "00:07:00" 15 = some "00:00" ∧
      bin_time "23:59:59" 15 = some "23:45" :=
  bin_time_truncates_and_pads "12:40:00" ['1', '2'] ['4', '0'] [['0', '0']] 15 40
    (by decide) (by decide) (by decide)

/-- Claim C9, counterexample: a non-numeric hour is not rejected;
`bin_time` copies it silently into the output label. -/
theorem bin_time_nonnumeric_hour_coerced :
    bin_time "ab:07:00" 15 = some "ab:00" := by decide

/-- Claim C9, amended: only the minute group is converted with `int`,
so a non-numeric minute fails fast (ValueError, modelled as `none`),
while the hour group is never validated (see the counterexample). -/
theorem bin_time_nonnumeric_minute_fails (t : String) (hcs mcs : List Char)
    (rest : List (List Char)) (w : Nat)
    (hsplit : splitOnChar ':' t.data = hcs :: mcs :: rest)
    (hm : parseInt? mcs = none) :
    bin_time t w = none := by
  simp only [bin_time, hsplit, hm]

theorem bin_time_nonnumeric_minute_fails_witness :
    bin_time "12:xx:00" 15 = none :=
  bin_time_nonnumeric_minute_fails "12:xx:00" ['1', '2'] ['x', 'x'] [['0', '0']] 15
    (by decide) (by decide)

/-- Claim C4: whenever the current page's status is not success the
loop breaks at once, returning the slots accumulated so far after this
one request, raising nothing; at the first page this is the empty list
after exactly one request (see the witness). -/
theorem walk_nonsuccess_short_circuit (tp : String → PageResponse) (fid st : String)
    (fuel calls : Nat) (acc : List FacilityDateTimeSlot)
    (h : ¬ (tp st).status = "success") :
    walkAux tp fid (fuel + 1) st calls acc = WalkResult.ok acc (calls + 1) := by
  simp [walkAux, h]

theorem walk_nonsuccess_short_circuit_witness :
    walk tpFail "2024-01-02" "1" 10 = WalkResult.ok [] 1 :=
  walk_nonsuccess_short_circuit (tpFail "2024-01-02") "1" "06:00:00" 9 0 [] (by decide)

/-- Claim C6, counterexample: a successful page with `more = true` and
no `next_start_time` key makes the walk raise `KeyError` after the
first request; it does not stop gracefully with the page's slots. -/
theorem walk_missing_next_start_time_counterexample :
    walk (fun _ _ => pageNoNext) "2024-01-02" "1" 10 = WalkResult.keyError 1 ∧
      walk (fun _ _ => pageNoNext) "2024-01-02" "1" 10 ≠
        WalkResult.ok [⟨"1", "2024-01-02", "09:00"⟩] 1 :=
  ⟨by decide, by decide⟩

/-- Claim C6, amended: when a successful page has `more = true` but no
`next_start_time`, the lookup `appts_info['next_start_time']` raises
`KeyError`; the walk neither stops gracefully nor keeps the page's
slots, and issues no further request. -/
theorem walk_missing_next_start_time_raises (tp : String → PageResponse) (fid st : String)
    (fuel calls : Nat) (acc : List FacilityDateTimeSlot)
    (h1 : (tp st).status = "success") (h2 : (tp st).more = true)
    (h3 : (tp st).next_start_time = none) :
    walkAux tp fid (fuel + 1) st calls acc = WalkResult.keyError (calls + 1) := by
  simp [walkAux, h1, h2, h3]

theorem walk_missing_next_start_time_raises_witness :
    walk (fun _ _ => pageNoNext) "2024-01-02" "1" 10 = WalkResult.keyError 1 :=
  walk_missing_next_start_time_raises (fun _ => pageNoNext) "1" "06:00:00" 9 0 []
    (by decide) (by decide) (by decide)

/-- Claim C5: the pagination loop of `_get_provider_slots_for_date` has
no iteration cap and no stalled-cursor error.  Against a transport
whose cursor never advances, for every bound `fuel` the loop is still
running after `fuel` iterations — it never terminates, and no
`PaginationStalled`-style outcome exists in the code. -/
theorem walk_stalled_cursor_never_terminates :
    ∀ fuel : Nat, walk stallTp "2024-01-02" "1" fuel = WalkResult.fuelOut fuel [] := by
  intro fuel
  have h := walkAux_stall "1" fuel "06:00:00" 0 []
  simpa [walk] using h

/-- Claim C1: one failing task is not isolated.  In
`get_all_available_times` the bare `f.result()` re-raises the task's
exception and aborts the collection, losing the successful task's
result; in `_stage_4_fill_more_times` the exception is caught but the
stale `prov_info_filled` local is appended, duplicating the previous
success (or raising `NameError` when the first task fails).  No
per-task Failure result exists. -/
theorem fanout_single_failure_not_isolated :
    collectAll [(provA, .ok [slot900]), (provB, .error "ConnectionError")] [] =
        Except.error "ConnectionError" ∧
      stage4Collect [(provA, .ok provA), (provB, .error "ConnectionError")] none [] =
        some [provA, provA] ∧
      stage4Collect [(provB, .error "ConnectionError"), (provA, .ok provA)] none [] = none :=
  ⟨rfl, rfl, rfl⟩

/-- Claim C2: no duplicate suppression.  Two raw slots of one provider
that bin to the same `FacilityDateTimeSlot` key survive the walk as two
equal slots, and the merge loop then appends the provider twice to that
key's entry. -/
theorem index_duplicate_provider_recorded_twice :
    walk (fun _ _ => tpDupPage) "2024-01-02" "1" 10 = WalkResult.ok [slot900, slot900] 1 ∧
      providersAt (buildIndex [(provA, [slot900, slot900])]) slot900 = [provA, provA] :=
  ⟨by decide, by decide⟩

/-- One loop iteration that continues: success page, `more = true`,
cursor present, slots well formed. -/
theorem walkAux_step_continue (tp : String → PageResponse) (fid st nst : String)
    (fuel calls : Nat) (acc ps : List FacilityDateTimeSlot)
    (h1 : (tp st).status = "success") (h2 : (tp st).more = true)
    (h3 : (tp st).next_start_time = some nst)
    (h4 : pageSlots fid (tp st) = some ps) :
    walkAux tp fid (fuel + 1) st calls acc =
      walkAux tp fid fuel nst (calls + 1) (acc ++ ps) := by
  simp [walkAux, h1, h2, h3, h4]

/-- The final loop iteration: success page with `more = false`. -/
theorem walkAux_step_last (tp : String → PageResponse) (fid st : String)
    (fuel calls : Nat) (acc ps : List FacilityDateTimeSlot)
    (h1 : (tp st).status = "success") (h2 : (tp st).more = false)
    (h4 : pageSlots fid (tp st) = some ps) :
    walkAux tp fid (fuel + 1) st calls acc = WalkResult.ok (acc ++ ps) (calls + 1) := by
  simp [walkAux, h1, h2, h4]

/-- Running the loop over a chain of pages: page `i` is served at
cursor `cur i`, the first `k` pages continue with cursor `cur (i+1)`,
page `k` ends the stream; the loop then makes exactly `k + 1` requests
and accumulates the pages' slots in order. -/
theorem walkAux_run (tp : String → PageResponse) (fid : String) :
    ∀ (k fuel : Nat) (cur : Nat → String) (pages : Nat → PageResponse)
      (ps : Nat → List FacilityDateTimeSlot) (calls : Nat)
      (acc : List FacilityDateTimeSlot),
      (∀ i, i ≤ k → tp (cur i) = pages i) →
      (∀ i, i < k → (pages i).status = "success" ∧ (pages i).more = true ∧
        (pages i).next_start_time = some (cur (i + 1))) →
      (pages k).status = "success" → (pages k).more = false →
      (∀ i, i ≤ k → pageSlots fid (pages i) = some (ps i)) →
      k < fuel →
      walkAux tp fid fuel (cur 0) calls acc =
        WalkResult.ok (acc ++ psConcat ps k) (calls + (k + 1)) := by
  intro k
  induction k with
  | zero =>
    intro fuel cur pages ps calls acc htp hmid hst hmore hps hfuel
    obtain ⟨f, rfl⟩ : ∃ f, fuel = f + 1 := ⟨fuel - 1, by omega⟩
    have h0 := htp 0 (Nat.le_refl 0)
    have hp0 := hps 0 (Nat.le_refl 0)
    rw [walkAux_step_last tp fid (cur 0) f calls acc (ps 0)
      (by rw [h0]; exact hst) (by rw [h0]; exact hmore) (by rw [h0]; exact hp0)]
    simp [psConcat]
  | succ k ih =>
    intro fuel cur pages ps calls acc htp hmid hst hmore hps hfuel
    obtain ⟨f, rfl⟩ : ∃ f, fuel = f + 1 := ⟨fuel - 1, by omega⟩
    have h0 := htp 0 (Nat.zero_le _)
    have hm0 := hmid 0 (Nat.succ_pos k)
    have hp0 := hps 0 (Nat.zero_le _)
    have ihr := ih f (fun i => cur (i + 1)) (fun i => pages (i + 1)) (fun i => ps (i + 1))
      (calls + 1) (acc ++ ps 0)
      (fun i hi => htp (i + 1) (Nat.succ_le_succ hi))
      (fun i hi => hmid (i + 1) (Nat.succ_lt_succ hi))
      hst hmore
      (fun i hi => hps (i + 1) (Nat.succ_le_succ hi))
      (by omega)
    rw [walkAux_step_continue tp fid (cur 0) (cur (0 + 1)) f calls acc (ps 0)
      (by rw [h0]; exact hm0.1) (by rw [h0]; exact hm0.2.1) (by rw [h0]; exact hm0.2.2)
      (by rw [h0]; exact hp0)]
    calc walkAux tp fid f (cur (0 + 1)) (calls + 1) (acc ++ ps 0)
        = WalkResult.ok (acc ++ ps 0 ++ psConcat (fun i => ps (i + 1)) k)
            (calls + 1 + (k + 1)) := ihr
      _ = WalkResult.ok (acc ++ psConcat ps (k + 1)) (calls + (k + 1 + 1)) := by
          simp only [psConcat, List.append_assoc]
          congr 1
          omega

/-- Claim C3: against a transport that serves `k` success pages with
`more = true` and a continuation cursor, then one success page with
`more = false`, the walk starts at the configured earliest time
"06:00:00", issues exactly `k + 1` page requests and returns the
concatenation of all `k + 1` pages' slot lists. -/
theorem walk_pages_count_and_concat (tp : String → String → PageResponse)
    (date fid : String) (k fuel : Nat) (cur : Nat → String)
    (pages : Nat → PageResponse) (ps : Nat → List FacilityDateTimeSlot)
    (h06 : cur 0 = "06:00:00")
    (htp : ∀ i, i ≤ k → tp date (cur i) = pages i)
    (hmid : ∀ i, i < k → (pages i).status = "success" ∧ (pages i).more = true ∧
      (pages i).next_start_time = some (cur (i + 1)))
    (hst : (pages k).status = "success") (hmore : (pages k).more = false)
    (hps : ∀ i, i ≤ k → pageSlots fid (pages i) = some (ps i))
    (hfuel : k < fuel) :
    walk tp date fid fuel = WalkResult.ok (psConcat ps k) (k + 1) := by
  have h := walkAux_run (tp date) fid k fuel cur pages ps 0 [] htp hmid hst hmore hps hfuel
  rw [h06] at h
  simpa [walk] using h

theorem walk_pages_count_and_concat_witness :
    walk tpTwoPages "2024-01-02" "1" 10 =
      WalkResult.ok [⟨"1", "2024-01-02", "09:00"⟩, ⟨"1", "2024-01-02", "10:15"⟩] 2 :=
  walk_pages_count_and_concat tpTwoPages "2024-01-02" "1" 1 10
    (fun i => if i = 0 then "06:00:00" else "10:00:00")
    (fun i => if i = 0 then pageA else pageB)
    (fun i => if i = 0 then [⟨"1", "2024-01-02", "09:00"⟩] else [⟨"1", "2024-01-02", "10:15"⟩])
    (by decide) (by decide) (by decide) (by decide) (by decide) (by decide) (by decide)

/-- Membership in an index entry after one `setdefault`/`append`. -/
theorem providersAt_updateSlot (s : FacilityDateTimeSlot) (pr : ProviderInfo)
    (k : FacilityDateTimeSlot) (p : ProviderInfo) :
    ∀ d : AvailabilityIndex,
      p ∈ providersAt (updateSlot d s pr) k ↔
        p ∈ providersAt d k ∨ (s = k ∧ pr = p) := by
  intro d
  induction d with
  | nil =>
    simp only [updateSlot, providersAt]
    by_cases h : s = k
    · simp [h, eq_comm]
    · simp [h]
  | cons e rest ih =>
    obtain ⟨ks, qs⟩ := e
    simp only [updateSlot]
    by_cases h : ks = s
    · subst h
      rw [if_pos rfl]
      simp only [providersAt]
      by_cases h2 : ks = k
      · subst h2
        rw [if_pos (rfl : ks = ks), if_pos (rfl : ks = ks)]
        simp only [List.mem_append, List.mem_singleton]
        constructor
        · rintro ((hq | rfl) | hr)
          · exact Or.inl (Or.inl hq)
          · exact Or.inr ⟨trivial, rfl⟩
          · exact Or.inl (Or.inr hr)
        · rintro ((hq | hr) | ⟨-, rfl⟩)
          · exact Or.inl (Or.inl hq)
          · exact Or.inr hr
          · exact Or.inl (Or.inr rfl)
      · rw [if_neg h2]
        simp [h2]
    · rw [if_neg h]
      simp only [providersAt]
      by_cases h2 : ks = k
      · subst h2
        rw [if_pos (rfl : ks = ks)]
        simp only [List.mem_append]
        constructor
        · rintro (hq | hrest)
          · exact Or.inl (Or.inl hq)
          · rcases ih.mp hrest with hr | hsp
            · exact Or.inl (Or.inr hr)
            · exact Or.inr hsp
        · rintro ((hq | hr) | hsp)
          · exact Or.inl hq
          · exact Or.inr (ih.mpr (Or.inl hr))
          · exact Or.inr (ih.mpr (Or.inr hsp))
      · rw [if_neg h2]
        simp only [List.nil_append]
        exact ih

/-- Membership in an index entry after merging one task result. -/
theorem providersAt_merge (pr : ProviderInfo) :
    ∀ (slots : List FacilityDateTimeSlot) (d : AvailabilityIndex)
      (k : FacilityDateTimeSlot) (p : ProviderInfo),
      p ∈ providersAt (mergeProviderSlots d pr slots) k ↔
        p ∈ providersAt d k ∨ (k ∈ slots ∧ pr = p) := by
  intro slots
  induction slots with
  | nil => intro d k p; simp [mergeProviderSlots]
  | cons s rest ih =>
    intro d k p
    have hstep : mergeProviderSlots d pr (s :: rest) =
        mergeProviderSlots (updateSlot d s pr) pr rest := rfl
    rw [hstep, ih (updateSlot d s pr) k p, providersAt_updateSlot]
    simp only [List.mem_cons]
    constructor
    · rintro ((hd | ⟨rfl, rfl⟩) | ⟨hk, rfl⟩)
      · exact Or.inl hd
      · exact Or.inr ⟨Or.inl rfl, rfl⟩
      · exact Or.inr ⟨Or.inr hk, rfl⟩
    · rintro (hd | ⟨(rfl | hk), rfl⟩)
      · exact Or.inl (Or.inl hd)
      · exact Or.inl (Or.inr ⟨rfl, rfl⟩)
      · exact Or.inr ⟨hk, rfl⟩

/-- Membership in an index entry after folding a list of task results
into an arbitrary starting index. -/
theorem providersAt_foldl (rs : List (ProviderInfo × List FacilityDateTimeSlot)) :
    ∀ (d : AvailabilityIndex) (k : FacilityDateTimeSlot) (p : ProviderInfo),
      p ∈ providersAt (rs.foldl (fun d' e => mergeProviderSlots d' e.1 e.2) d) k ↔
        p ∈ providersAt d k ∨ ∃ e ∈ rs, e.1 = p ∧ k ∈ e.2 := by
  induction rs with
  | nil => intro d k p; simp
  | cons e rest ih =>
    intro d k p
    simp only [List.foldl_cons]
    rw [ih, providersAt_merge]
    simp only [List.exists_mem_cons_iff]
    tauto

/-- The provider set an index entry records is exactly the set of
feeding task results whose slot list hits the key. -/
theorem providersAt_buildIndex (rs : List (ProviderInfo × List FacilityDateTimeSlot))
    (k : FacilityDateTimeSlot) (p : ProviderInfo) :
    p ∈ providersAt (buildIndex rs) k ↔ ∃ e ∈ rs, e.1 = p ∧ k ∈ e.2 := by
  have h := providersAt_foldl rs [] k p
  simpa [buildIndex, providersAt] using h

/-- Claim C8: the merge of `get_all_available_times` is
order-independent when entries are compared as key to provider-set
pairs: permuting the successful task results changes no entry's
provider membership. -/
theorem buildIndex_perm_invariant (rs1 rs2 : List (ProviderInfo × List FacilityDateTimeSlot))
    (h : rs1.Perm rs2) :
    ∀ (k : FacilityDateTimeSlot) (p : ProviderInfo),
      p ∈ providersAt (buildIndex rs1) k ↔ p ∈ providersAt (buildIndex rs2) k := by
  intro k p
  rw [providersAt_buildIndex, providersAt_buildIndex]
  constructor
  · rintro ⟨e, he, h1, h2⟩
    exact ⟨e, h.mem_iff.mp he, h1, h2⟩
  · rintro ⟨e, he, h1, h2⟩
    exact ⟨e, h.mem_iff.mpr he, h1, h2⟩

theorem buildIndex_perm_invariant_witness :
    (provA ∈ providersAt (buildIndex [(provA, [slot900]), (provB, [slot1015])]) slot900 ↔
      provA ∈ providersAt (buildIndex [(provB, [slot1015]), (provA, [slot900])]) slot900) :=
  buildIndex_perm_invariant _ _ (List.Perm.swap _ _ _) slot900 provA

/-- Every slot a well-formed appointment list produces carries the
provider's facility id, and its date and binned time come from one of
the page's records. -/
theorem slotsOfAppts_mem (fid : String) :
    ∀ (appts : List ApptRecord) (qs : List FacilityDateTimeSlot),
      slotsOfAppts fid appts = some qs →
      ∀ s ∈ qs, s.facility_id = fid ∧
        ∃ a ∈ appts, s.date = a.date ∧ bin_time a.time 15 = some s.time := by
  intro appts
  induction appts with
  | nil =>
    intro qs h s hs
    simp only [slotsOfAppts, Option.some.injEq] at h
    subst h
    simp at hs
  | cons a rest ih =>
    intro qs h s hs
    cases hb : bin_time a.time 15 with
    | none => rw [slotsOfAppts, hb] at h; simp at h
    | some tb =>
      cases hr : slotsOfAppts fid rest with
      | none => rw [slotsOfAppts, hb, hr] at h; simp at h
      | some ss =>
        rw [slotsOfAppts, hb, hr] at h
        simp only [Option.some.injEq] at h
        subst h
        rcases List.mem_cons.mp hs with hhd | htl
        · subst hhd
          exact ⟨rfl, a, List.mem_cons_self a rest, rfl, hb⟩
        · obtain ⟨hfid, a', ha', hd, ht⟩ := ih ss hr s htl
          exact ⟨hfid, a', List.mem_cons_of_mem a ha', hd, ht⟩

/-- Every slot a successful walk returns has the provider's facility id
and takes its date and binned time from a record of some served page
(never from the requested date argument). -/
theorem walkAux_ok_mem (tp : String → PageResponse) (fid : String) :
    ∀ (fuel : Nat) (st : String) (calls : Nat)
      (acc slots : List FacilityDateTimeSlot) (n : Nat),
      walkAux tp fid fuel st calls acc = WalkResult.ok slots n →
      ∀ s ∈ slots, s ∈ acc ∨ (s.facility_id = fid ∧
        ∃ st' a, a ∈ (tp st').appt_slots ∧ s.date = a.date ∧
          bin_time a.time 15 = some s.time) := by
  intro fuel
  induction fuel with
  | zero => intro st calls acc slots n h s hs; simp [walkAux] at h
  | succ f ih =>
    intro st calls acc slots n h s hs
    by_cases h1 : (tp st).status = "success"
    · by_cases h2 : (tp st).more = true
      · cases h3 : (tp st).next_start_time with
        | none => simp [walkAux, h1, h2, h3] at h
        | some nst =>
          cases h4 : pageSlots fid (tp st) with
          | none => simp [walkAux, h1, h2, h3, h4] at h
          | some qs =>
            have hstep := walkAux_step_continue tp fid st nst f calls acc qs h1 h2 h3 h4
            rw [hstep] at h
            rcases ih nst (calls + 1) (acc ++ qs) slots n h s hs with hin | hq
            · rcases List.mem_append.mp hin with hacc | hqs
              · exact Or.inl hacc
              · obtain ⟨hfid, a, ha, hd, ht⟩ := slotsOfAppts_mem fid (tp st).appt_slots qs h4 s hqs
                exact Or.inr ⟨hfid, st, a, ha, hd, ht⟩
            · exact Or.inr hq
      · cases h4 : pageSlots fid (tp st) with
        | none => simp [walkAux, h1, h2, h4] at h
        | some qs =>
          have h2f : (tp st).more = false := by
            cases hmv : (tp st).more
            · rfl
            · exact absurd hmv h2
          have hstep := walkAux_step_last tp fid st f calls acc qs h1 h2f h4
          rw [hstep] at h
          obtain ⟨hsl, -⟩ := WalkResult.ok.inj h
          subst hsl
          rcases List.mem_append.mp hs with hacc | hqs
          · exact Or.inl hacc
          · obtain ⟨hfid, a, ha, hd, ht⟩ := slotsOfAppts_mem fid (tp st).appt_slots qs h4 s hqs
            exact Or.inr ⟨hfid, st, a, ha, hd, ht⟩
    · have hstep :
          walkAux tp fid (f + 1) st calls acc = WalkResult.ok acc (calls + 1) := by
        simp [walkAux, h1]
      rw [hstep] at h
      obtain ⟨hsl, -⟩ := WalkResult.ok.inj h
      subst hsl
      exact Or.inl hs

/-- Claim C10: every slot a successful walk returns has
`facility_id` equal to the queried provider's facility id, while its
`date` is copied from the server response's slot record, so it need not
equal the requested date (the witness exhibits the mismatch). -/
theorem walk_slot_fields_provenance (tp : String → String → PageResponse)
    (date fid : String) (fuel n : Nat) (slots : List FacilityDateTimeSlot)
    (h : walk tp date fid fuel = WalkResult.ok slots n) :
    ∀ s ∈ slots, s.facility_id = fid ∧
      ∃ st a, a ∈ (tp date st).appt_slots ∧ s.date = a.date ∧
        bin_time a.time 15 = some s.time := by
  intro s hs
  rcases walkAux_ok_mem (tp date) fid fuel "06:00:00" 0 [] slots n h s hs with hin | hq
  · simp at hin
  · exact hq

theorem walk_slot_fields_provenance_witness :
    (FacilityDateTimeSlot.mk "1" "2999-01-01" "09:00").facility_id = "1" ∧
      (∃ st a, a ∈ (tpOddDate "2024-01-01" st).appt_slots ∧
        (FacilityDateTimeSlot.mk "1" "2999-01-01" "09:00").date = a.date ∧
        bin_time a.time 15 = some (FacilityDateTimeSlot.mk "1" "2999-01-01" "09:00").time) ∧
      (FacilityDateTimeSlot.mk "1" "2999-01-01" "09:00").date ≠ "2024-01-01" := by
  have h := walk_slot_fields_provenance tpOddDate "2024-01-01" "1" 10 1
    [⟨"1", "2999-01-01", "09:00"⟩] (by decide) ⟨"1", "2999-01-01", "09:00"⟩ (by decide)
  exact ⟨h.1, h.2, by decide⟩
